import Mathlib

/-!
# gmailfilter: configuration resolver and error model

A shallow embedding of `pkg/errors/err.go` and `pkg/config/read.go`.

Go `error` interface values are modelled by the inductive type `Error`.  The
value `Error.nil` is the nil interface; every other constructor is one dynamic
type that the two source files can produce or receive:

* `leaf` — an error of a foreign package (`errors.New`, the yaml, json,
  jsonnet and os packages).  It is a pointer (identity `addr`) with a message
  and none of the optional methods `Is`, `As`, `Unwrap`, `Cause`, `NotFound`.
* `fundamental`, `withMessage`, `withStack` — the pointer types of
  `github.com/pkg/errors`, the library `read.go` imports as `errors`.
* `notFoundError` — the struct of `read.go`.
* `detailed`, `annotated` — the structs of `err.go`.

Go compares interface values with `==` by dynamic type and value: pointers by
address, structs field by field.  With the address kept as a field, this is
the structural equality of `Error`.
-/

set_option linter.dupNamespace false

namespace Gmailfilter

/-- Go `error` interface values over the dynamic types of the two packages. -/
inductive Error where
  | nil
  | leaf (addr : Nat) (msg : String)
  | fundamental (addr : Nat) (msg : String)
  | withMessage (addr : Nat) (cause : Error) (msg : String)
  | withStack (addr : Nat) (err : Error)
  | notFoundError (err : Error)
  | detailed (err : Error) (details : String)
  | annotated (cause symptom : Error)
  deriving DecidableEq, Repr

/-! ## `pkg/errors/err.go` -/

/-- `WithCause` of `err.go`: the struct literal `annotated{cause, symptom}`,
built without looking at either argument. -/
def WithCause (symptom cause : Error) : Error :=
  .annotated cause symptom

/-- `WithDetails` of `err.go`. -/
def WithDetails (err : Error) (details : String) : Error :=
  if err = .nil then .nil else .detailed err details

/-- The loop of the standard library's `errors.Is` (entered with a non-nil
target).  Each round compares `err == target`, then asks the `Is` method when
the dynamic type has one, then steps to `Unwrap()` when the type has one and
stops otherwise.

Only `annotated` has an `Is` method (`err.go`): it is
`errors.Is(e.symptom, target) || errors.Is(e.cause, target)`, written out here
with the nil test that opens `errors.Is`.  `Unwrap` exists on `annotated`
(the cause) and on `withMessage` and `withStack` of `github.com/pkg/errors`
(from its version 0.9.0 on).
`detailed` and `notFoundError` embed the `error` interface, which promotes
`Error()` only, so they have neither method. -/
def isLoop : Error → Error → Bool
  | .nil, t => decide (Error.nil = t)
  | .leaf a m, t => decide (Error.leaf a m = t)
  | .fundamental a m, t => decide (Error.fundamental a m = t)
  | .withMessage a c m, t =>
      decide (Error.withMessage a c m = t) || (c != .nil && isLoop c t)
  | .withStack a e, t =>
      decide (Error.withStack a e = t) || (e != .nil && isLoop e t)
  | .notFoundError e, t => decide (Error.notFoundError e = t)
  | .detailed e d, t => decide (Error.detailed e d = t)
  | .annotated c s, t =>
      decide (Error.annotated c s = t)
      || ((if s = .nil ∨ t = .nil then decide (s = t) else isLoop s t)
          || (if c = .nil ∨ t = .nil then decide (c = t) else isLoop c t))
      || (c != .nil && isLoop c t)

/-- `Is` of `err.go`, the alias of the standard `errors.Is`: with a nil
argument it is `err == target`, otherwise the loop. -/
def Is (err target : Error) : Bool :=
  if err = .nil ∨ target = .nil then decide (err = target) else isLoop err target

/-- The method `annotated.Is` of `err.go`. -/
def annotatedIs (cause symptom target : Error) : Bool :=
  Is symptom target || Is cause target

/-- The method `annotated.Unwrap` of `err.go`. -/
def annotatedUnwrap (cause _symptom : Error) : Error :=
  cause

/-- The standard library's `errors.Unwrap(err)`: the result of the method
`Unwrap()` when the dynamic type has one, nil otherwise. -/
def Unwrap : Error → Error
  | .annotated c s => annotatedUnwrap c s
  | .withMessage _ c _ => c
  | .withStack _ e => e
  | _ => .nil

/-- What `fmt.Sprintf` writes for the verb `%s` when the operand's `Error`
method panics on a nil receiver field. -/
def fmtPanic : String :=
  "%!s(PANIC=Error method: runtime error: invalid memory address or nil pointer dereference)"

/-- The method `Error()` of each dynamic type; `none` is the run-time panic of
a method call through a nil interface.

* `withMessage`: `w.msg + ": " + w.cause.Error()`; `withStack`,
  `notFoundError`, `detailed`: the `Error()` of the embedded error.
* `annotated` (`err.go`): `fmt.Sprintf("%s: %s", e.cause, e.symptom)`, the
  cause first.  For `%s`, `fmt` writes `%!s(<nil>)` for a nil operand, the
  operand's `Error()` otherwise, and recovers from a panic of that method. -/
def Error.Error : Error → Option String
  | .nil => none
  | .leaf _ m => some m
  | .fundamental _ m => some m
  | .withMessage _ c m =>
      match Error.Error c with
      | some s => some (m ++ ": " ++ s)
      | none => none
  | .withStack _ e => Error.Error e
  | .notFoundError e => Error.Error e
  | .detailed e _ => Error.Error e
  | .annotated c s =>
      let cs := if c = .nil then "%!s(<nil>)" else (Error.Error c).getD fmtPanic
      let ss := if s = .nil then "%!s(<nil>)" else (Error.Error s).getD fmtPanic
      some (cs ++ ": " ++ ss)

/-- The scan of `strings.ReplaceAll` for a one-character `old`: each
occurrence of `old` becomes `new`. -/
def replaceAllChars (old : Char) (new : List Char) : List Char → List Char
  | [] => []
  | c :: cs =>
      if c = old then new ++ replaceAllChars old new cs
      else c :: replaceAllChars old new cs

/-- `strings.ReplaceAll(s, old, new)` where `old` is a string of one
character, as in its only call in `err.go`. -/
def ReplaceAll (s : String) (old : Char) (new : String) : String :=
  String.mk (replaceAllChars old new.data s.data)

/-- The standard library's `errors.As(err, &dErr)` for a target of the struct
type `detailed`: `some` of the fields of the value stored into `dErr`, `none`
for the result `false`.

Each round of the loop of `errors.As` takes `err` when its dynamic type is
`detailed`, then asks the `As` method when the type has one, then steps to
`Unwrap()` (stopping on nil, for which this function is `none`) when the type
has one and stops otherwise.  Only `annotated` has an `As` method (`err.go`):
`errors.As` on the symptom, and on the cause when that fails. -/
def asDetailed : Error → Option (Error × String)
  | .nil => none
  | .leaf _ _ => none
  | .fundamental _ _ => none
  | .withMessage _ c _ => asDetailed c
  | .withStack _ e => asDetailed e
  | .notFoundError _ => none
  | .detailed e d => some (e, d)
  | .annotated c s =>
      match asDetailed s with
      | some r => some r
      | none =>
          match asDetailed c with
          | some r => some r
          | none => asDetailed c

/-- `Details` of `err.go`.  The recursion is on `dErr.error`, a proper part of
`err`. -/
def Details (err : Error) : String :=
  match h : asDetailed err with
  | some (inner, details) =>
      "\n  - " ++ ReplaceAll details '\n' "\n    " ++ Details inner
  | none => ""
termination_by sizeOf err
decreasing_by
  simp_wf
  induction err generalizing inner details with
  | nil => simp [asDetailed] at h
  | leaf a m => simp [asDetailed] at h
  | fundamental a m => simp [asDetailed] at h
  | withMessage a c m ih =>
      have := ih inner details (by simpa [asDetailed] using h)
      simp
      omega
  | withStack a e ih =>
      have := ih inner details (by simpa [asDetailed] using h)
      simp
      omega
  | notFoundError e _ => simp [asDetailed] at h
  | detailed e d _ =>
      simp only [asDetailed, Option.some.injEq, Prod.mk.injEq] at h
      rw [← h.1]
      simp
      omega
  | annotated c s ihc ihs =>
      simp only [asDetailed] at h
      cases hs : asDetailed s with
      | some r =>
          rw [hs] at h
          have := ihs inner details (by rw [hs]; exact h)
          simp
          omega
      | none =>
          rw [hs] at h
          cases hc : asDetailed c with
          | some r =>
              rw [hc] at h
              have := ihc inner details (by rw [hc]; exact h)
              simp
              omega
          | none =>
              rw [hc] at h
              simp at h

/-! ## `github.com/pkg/errors`, as used by `read.go`

The constructors of this library allocate; the address they receive is the
argument `next`, the next free address of the caller. -/

/-- `errors.Wrap(err, message)`: nil for a nil `err`, otherwise a
`*withStack` around a `*withMessage` around `err`. -/
def Wrap (next : Nat) (err : Error) (message : String) : Error :=
  if err = .nil then .nil else .withStack (next + 1) (.withMessage next err message)

/-- `errors.Errorf(format, args...)`: a `*fundamental` holding the formatted
message, which the caller passes already formatted. -/
def Errorf (next : Nat) (message : String) : Error :=
  .fundamental next message

/-- `errors.Cause(err)`: follows the method `Cause()` while the dynamic type
has one.  Only `withMessage` and `withStack` have it; the structs of this
repository do not. -/
def Cause : Error → Error
  | .withMessage _ c _ => Cause c
  | .withStack _ e => Cause e
  | .nil => .nil
  | .leaf a m => .leaf a m
  | .fundamental a m => .fundamental a m
  | .notFoundError e => .notFoundError e
  | .detailed e d => .detailed e d
  | .annotated c s => .annotated c s

/-! ## `pkg/config/read.go` -/

/-- `IsNotFound` of `read.go`: the type assertion of `errors.Cause(err)` to the
interface `notFound`, which only `notFoundError` implements, and whose method
`NotFound()` returns `true`. -/
def IsNotFound (err : Error) : Bool :=
  match Cause err with
  | .notFoundError _ => true
  | _ => false

/-- `NotFoundError` of `read.go`. -/
def NotFoundError (err : Error) : Error :=
  if err = .nil then .nil else .notFoundError err

/-- The loop of `filepath.Ext` over the characters of the path, last one
first; `acc` is the suffix already passed.  The path separator is `/`. -/
def extLoop : List Char → List Char → String
  | [], _ => ""
  | c :: rest, acc =>
      if c = '/' then ""
      else if c = '.' then String.mk (c :: acc)
      else extLoop rest (c :: acc)

/-- `filepath.Ext(path)`: the suffix from the last dot of the last path
element, empty when that element has no dot. -/
def Ext (path : String) : String :=
  extLoop path.data.reverse []

/-- What `read.go` takes from outside `src/`: the two schema packages
(`cfgv1`, `cfgv2`) and the yaml, json, jsonnet and os libraries.  A Go call
that fills a variable through a pointer and returns an error is a function from
the variable's old value to its new value and the error.  Byte slices and
strings are both `String`. -/
structure Env (ConfigV1 ConfigV2 : Type) where
  /-- The constant `cfgv1.Version`. -/
  versionV1 : String
  /-- The constant `cfgv2.Version`, which is `LatestVersion`. -/
  versionV2 : String
  /-- The zero value `cfgv1.Config{}`. -/
  zeroV1 : ConfigV1
  /-- The zero value `cfgv2.Config{}`. -/
  zeroV2 : ConfigV2
  /-- The field `Version` of a `cfgv2.Config`. -/
  getVersion : ConfigV2 → String
  /-- The function `cfgv2.Import`. -/
  Import : ConfigV1 → ConfigV2 × Error
  /-- The call `yaml.Unmarshal(buf, &v)` on the zero one-field struct of
  `readVersion`: the field `v.Version` afterwards, and the error. -/
  yamlUnmarshalVersion : String → String × Error
  /-- The call `yaml.UnmarshalStrict(buf, &res)` on a `cfgv2.Config`. -/
  yamlUnmarshalStrictV2 : String → ConfigV2 → ConfigV2 × Error
  /-- The call `yaml.UnmarshalStrict(buf, &v1)` on a `cfgv1.Config`. -/
  yamlUnmarshalStrictV1 : String → ConfigV1 → ConfigV1 × Error
  /-- The call `json.Unmarshal(data, &res)` on a `cfgv2.Config`. -/
  jsonUnmarshal : String → ConfigV2 → ConfigV2 × Error
  /-- The method `vm.EvaluateSnippet(filename, snippet)` of a fresh jsonnet VM. -/
  EvaluateSnippet : String → String → String × Error
  /-- The call `ioutil.ReadFile(path)`. -/
  ioutilReadFile : String → String × Error
  /-- The test `os.IsNotExist` of the standard library, the classification of
  a read failure as file-does-not-exist.  `read.go` never calls it. -/
  osIsNotExist : Error → Bool

variable {ConfigV1 ConfigV2 : Type}

/-- `LatestVersion` of `read.go`. -/
def LatestVersion (env : Env ConfigV1 ConfigV2) : String :=
  env.versionV2

/-- `readVersion` of `read.go`. -/
def readVersion (env : Env ConfigV1 ConfigV2) (buf : String) : String × Error :=
  env.yamlUnmarshalVersion buf

/-- `readJsonnet` of `read.go`. -/
def readJsonnet (env : Env ConfigV1 ConfigV2) (next : Nat) (path buf : String) :
    ConfigV2 × Error :=
  let res := env.zeroV2
  let (jstr, err) := env.EvaluateSnippet path buf
  if err ≠ .nil then
    (res, Wrap next err "invalid jsonnet")
  else
    let (res, err) := env.jsonUnmarshal jstr res
    if err ≠ .nil then
      (res, err)
    else if env.getVersion res ≠ env.versionV2 then
      (res, Errorf next ("unsupported version \x27" ++ env.getVersion res ++ "\x27"))
    else
      (res, .nil)

/-- `readYaml` of `read.go`.  The `switch` tries its cases in source order. -/
def readYaml (env : Env ConfigV1 ConfigV2) (next : Nat) (buf : String) :
    ConfigV2 × Error :=
  let res := env.zeroV2
  let (version, err) := readVersion env buf
  if err ≠ .nil then
    (res, Wrap next err "error parsing the config version")
  else if version = env.versionV2 then
    env.yamlUnmarshalStrictV2 buf res
  else if version = env.versionV1 then
    let (v1, err) := env.yamlUnmarshalStrictV1 buf env.zeroV1
    if err ≠ .nil then
      (res, Wrap next err "error parsing v1alpha1 config")
    else
      env.Import v1
  else
    (res, Errorf next ("unknown config version: " ++ version))

/-- `ReadFile` of `read.go`. -/
def ReadFile (env : Env ConfigV1 ConfigV2) (next : Nat) (path : String) :
    ConfigV2 × Error :=
  let (b, err) := env.ioutilReadFile path
  if err ≠ .nil then
    (env.zeroV2, NotFoundError err)
  else if Ext path = ".jsonnet" then
    readJsonnet env next path b
  else
    readYaml env next b

/-! ## A sample environment

A small executable instance of `Env`, used to run the functions above on
concrete inputs.  Its two schemas have one field besides `Version`; its
documents are lists of top-level keys with scalar values; its decoders follow
the documented behaviour of the libraries: `yaml.UnmarshalStrict` reports a key
that the schema lacks, `json.Unmarshal` and `yaml.Unmarshal` skip it. -/

/-- The sample predecessor schema. -/
structure SampleV1 where
  Version : String
  Name : String
  deriving DecidableEq, Repr

/-- The sample latest schema. -/
structure SampleV2 where
  Version : String
  Author : String
  deriving DecidableEq, Repr

/-- A parsed document: top-level keys with their scalar values. -/
abbrev Doc := List (String × String)

/-- The texts the sample parser knows, in YAML and in JSON syntax. -/
def sampleParse : String → Option Doc
  | "version: v1alpha2\nauthor: me" => some [("version", "v1alpha2"), ("author", "me")]
  | "version: v1alpha2\nauthor: me\nbogus: 1" =>
      some [("version", "v1alpha2"), ("author", "me"), ("bogus", "1")]
  | "version: v1alpha1\nname: me" => some [("version", "v1alpha1"), ("name", "me")]
  | "version: v9\nauthor: me" => some [("version", "v9"), ("author", "me")]
  | "author: me" => some [("author", "me")]
  | "\x7b\"version\": \"v1alpha2\", \"author\": \"me\"\x7d" =>
      some [("version", "v1alpha2"), ("author", "me")]
  | "\x7b\"version\": \"v1alpha2\", \"author\": \"me\", \"bogus\": \"1\"\x7d" =>
      some [("version", "v1alpha2"), ("author", "me"), ("bogus", "1")]
  | "\x7b\"version\": \"v1alpha1\", \"author\": \"me\"\x7d" =>
      some [("version", "v1alpha1"), ("author", "me")]
  | _ => none

/-- The error of the sample parser on a text it does not know. -/
def sampleSyntaxError : Error :=
  .leaf 100 "yaml: did not find expected node content"

/-- Stores one key of a document into a `SampleV2`, when the schema has it. -/
def setV2 (c : SampleV2) : String × String → Option SampleV2
  | ("version", v) => some { c with Version := v }
  | ("author", v) => some { c with Author := v }
  | _ => none

/-- Stores one key of a document into a `SampleV1`, when the schema has it. -/
def setV1 (c : SampleV1) : String × String → Option SampleV1
  | ("version", v) => some { c with Version := v }
  | ("name", v) => some { c with Name := v }
  | _ => none

/-- Decodes a document into a `SampleV2`.  A key the schema lacks is an error
when `strict` and is skipped otherwise. -/
def decodeV2 (strict : Bool) : Doc → SampleV2 → SampleV2 × Error
  | [], c => (c, .nil)
  | kv :: rest, c =>
      match setV2 c kv with
      | some c2 => decodeV2 strict rest c2
      | none =>
          if strict then
            ((decodeV2 strict rest c).1, .leaf 101 ("field " ++ kv.1 ++ " not found in type Config"))
          else decodeV2 strict rest c

/-- Decodes a document strictly into a `SampleV1`. -/
def decodeV1 : Doc → SampleV1 → SampleV1 × Error
  | [], c => (c, .nil)
  | kv :: rest, c =>
      match setV1 c kv with
      | some c1 => decodeV1 rest c1
      | none => ((decodeV1 rest c).1, .leaf 102 ("field " ++ kv.1 ++ " not found in type Config"))

/-- The value of the key `version` of a document, empty when absent. -/
def docVersion : Doc → String
  | [] => ""
  | (k, v) :: rest => if k = "version" then v else docVersion rest

/-- The sample evaluator: three sources that evaluate to JSON text, and a
run-time error for every other source. -/
def sampleEvaluate (_filename : String) : String → String × Error
  | "\x7b version: \"v1alpha2\", author: \"me\" \x7d" =>
      ("\x7b\"version\": \"v1alpha2\", \"author\": \"me\"\x7d", .nil)
  | "\x7b version: \"v1alpha2\", author: \"me\", bogus: \"1\" \x7d" =>
      ("\x7b\"version\": \"v1alpha2\", \"author\": \"me\", \"bogus\": \"1\"\x7d", .nil)
  | "\x7b version: \"v1alpha1\", author: \"me\" \x7d" =>
      ("\x7b\"version\": \"v1alpha1\", \"author\": \"me\"\x7d", .nil)
  | _ => ("", .leaf 103 "RUNTIME ERROR: undefined variable")

/-- The sample file system: six readable files, one file that may not be read,
and no other file. -/
def sampleReadFile : String → String × Error
  | "cfg.yaml" => ("version: v1alpha2\nauthor: me", .nil)
  | "old.yaml" => ("version: v1alpha1\nname: me", .nil)
  | "cfg.jsonnet" => ("\x7b version: \"v1alpha2\", author: \"me\" \x7d", .nil)
  | "typo.jsonnet" => ("\x7b version: \"v1alpha2\", author: \"me\", bogus: \"1\" \x7d", .nil)
  | "old.jsonnet" => ("\x7b version: \"v1alpha1\", author: \"me\" \x7d", .nil)
  | "bad.jsonnet" => ("local", .nil)
  | "secret.yaml" => ("", .leaf 104 "open secret.yaml: permission denied")
  | path => ("", .leaf 105 ("open " ++ path ++ ": no such file or directory"))

/-- The sample classification: of the two kinds of read failure of
`sampleReadFile`, the one at address 105 is file-does-not-exist. -/
def sampleIsNotExist : Error → Bool
  | .leaf 105 _ => true
  | _ => false

/-- The sample environment. -/
def sampleEnv : Env SampleV1 SampleV2 where
  versionV1 := "v1alpha1"
  versionV2 := "v1alpha2"
  zeroV1 := ⟨"", ""⟩
  zeroV2 := ⟨"", ""⟩
  getVersion := fun c => c.Version
  Import := fun v1 => (⟨"v1alpha2", v1.Name⟩, .nil)
  yamlUnmarshalVersion := fun buf =>
    match sampleParse buf with
    | some doc => (docVersion doc, .nil)
    | none => ("", sampleSyntaxError)
  yamlUnmarshalStrictV2 := fun buf c =>
    match sampleParse buf with
    | some doc => decodeV2 true doc c
    | none => (c, sampleSyntaxError)
  yamlUnmarshalStrictV1 := fun buf c =>
    match sampleParse buf with
    | some doc => decodeV1 doc c
    | none => (c, sampleSyntaxError)
  jsonUnmarshal := fun data c =>
    match sampleParse data with
    | some doc => decodeV2 false doc c
    | none => (c, .leaf 106 "invalid character")
  EvaluateSnippet := sampleEvaluate
  ioutilReadFile := sampleReadFile
  osIsNotExist := sampleIsNotExist

/-- Applies `errors.Wrap` once per message of the list, the first message
innermost; `next + 2 * i` is the address handed to layer `i`. -/
def wrapAll (next : Nat) : List String → Error → Error
  | [], err => err
  | m :: ms, err => wrapAll (next + 2) ms (Wrap next err m)

/-- The environment `env` with its two strict decoders and its `Import`
replaced; every other component is kept. -/
def replaceDecoders (env : Env ConfigV1 ConfigV2)
    (dec2 : String → ConfigV2 → ConfigV2 × Error)
    (dec1 : String → ConfigV1 → ConfigV1 × Error)
    (imp : ConfigV1 → ConfigV2 × Error) : Env ConfigV1 ConfigV2 :=
  ⟨env.versionV1, env.versionV2, env.zeroV1, env.zeroV2, env.getVersion, imp,
    env.yamlUnmarshalVersion, dec2, dec1, env.jsonUnmarshal, env.EvaluateSnippet,
    env.ioutilReadFile, env.osIsNotExist⟩

/-- Applies `WithDetails` once per detail of the list, the first detail
innermost. -/
def withAllDetails (base : Error) (ds : List String) : Error :=
  ds.foldl WithDetails base

/-- The concatenation of a list of strings, in order. -/
def concatAll : List String → String
  | [] => ""
  | s :: ss => s ++ concatAll ss

/-- The indentation of a line: the number of spaces it starts with. -/
def indentOf (line : String) : Nat :=
  (line.data.takeWhile (fun c => c = ' ')).length

/-- Modelled from the spec: the contract of `cfgv2.Import`, whose code is
not under `src/`.  The spec has it "produce a LatestConfig" and calls migration
a "mapping from an older schema instance to the latest schema instance": a
config that `Import` returns with a nil error has the latest version. -/
def ImportYieldsLatest (env : Env ConfigV1 ConfigV2) : Prop :=
  ∀ (v1 : ConfigV1) (cfg : ConfigV2), env.Import v1 = (cfg, .nil) →
    env.getVersion cfg = env.versionV2

/-- Modelled from the spec: the contract of the strict decode into
`cfgv2.Config`, whose declaration (with the yaml key of its field `Version`) is
not under `src/`.  The spec has "a VersionedConfig's `Version` field always
matches the schema it was parsed into": on a buffer whose sniffed version is
the latest tag, a config decoded with a nil error has that version. -/
def StrictDecodeKeepsVersion (env : Env ConfigV1 ConfigV2) : Prop :=
  ∀ (buf : String) (cfg : ConfigV2), readVersion env buf = (env.versionV2, .nil) →
    env.yamlUnmarshalStrictV2 buf env.zeroV2 = (cfg, .nil) →
    env.getVersion cfg = env.versionV2

/-! ## Lemmas on the error model -/

theorem Is_of_ne_nil (err target : Error) (he : err ≠ .nil) (ht : target ≠ .nil) :
    Is err target = isLoop err target := by
  simp [Is, he, ht]

theorem Is_nil_left (target : Error) (ht : target ≠ .nil) : Is .nil target = false := by
  simp [Is, ht, Ne.symm ht]

theorem isLoop_annotated (c s t : Error) :
    isLoop (.annotated c s) t
      = (decide (Error.annotated c s = t) || annotatedIs c s t || (c != .nil && isLoop c t)) := by
  simp only [isLoop, annotatedIs, Is]

theorem unwrap_step_le_Is (c t : Error) (ht : t ≠ .nil) :
    (c != .nil && isLoop c t) = true → Is c t = true := by
  intro h
  simp only [Bool.and_eq_true, bne_iff_ne, ne_eq] at h
  rw [Is_of_ne_nil c t h.1 ht]
  exact h.2

theorem Is_annotated (c s t : Error) (ht : t ≠ .nil) :
    Is (.annotated c s) t = (decide (Error.annotated c s = t) || Is s t || Is c t) := by
  rw [Is_of_ne_nil _ _ (by simp) ht, isLoop_annotated, annotatedIs]
  have h := unwrap_step_le_Is c t ht
  cases h1 : decide (Error.annotated c s = t) <;> cases h2 : Is s t <;> cases h3 : Is c t <;>
    cases h4 : (c != .nil && isLoop c t) <;> simp_all

theorem Cause_Wrap (next : Nat) (err : Error) (m : String) : Cause (Wrap next err m) = Cause err := by
  unfold Wrap
  split
  · next h => subst h; rfl
  · simp [Cause]

theorem Cause_wrapAll (ms : List String) (next : Nat) (err : Error) :
    Cause (wrapAll next ms err) = Cause err := by
  induction ms generalizing next err with
  | nil => rfl
  | cons m ms ih => simp [wrapAll, ih, Cause_Wrap]

theorem annotated_ne_cause (c s : Error) : Error.annotated c s ≠ c := by
  intro h
  have := congrArg sizeOf h
  simp at this
  omega

theorem annotated_ne_symptom (c s : Error) : Error.annotated c s ≠ s := by
  intro h
  have := congrArg sizeOf h
  simp at this

/-! ## C1 -/

/-- C1, as stated, fails: `WithCause(nil, e)` and `WithCause(e, nil)` are not
`e`, `WithCause(nil, nil)` is not nil, and the annotated error built from a nil
cause holds that nil cause. -/
theorem WithCause_nil_not_transparent :
    WithCause .nil (.leaf 1 "boom") ≠ .leaf 1 "boom"
    ∧ WithCause (.leaf 1 "boom") .nil ≠ .leaf 1 "boom"
    ∧ WithCause .nil .nil ≠ .nil
    ∧ WithCause (.leaf 1 "boom") .nil = .annotated .nil (.leaf 1 "boom") := by
  decide

/-- C1, amended: `WithCause` makes no nil test.  For every symptom and cause,
nil or not, the result is the annotated error holding exactly that cause and
that symptom; it is never nil and is neither of its two arguments. -/
theorem WithCause_always_annotates (symptom cause : Error) :
    WithCause symptom cause = .annotated cause symptom
    ∧ annotatedUnwrap cause symptom = cause
    ∧ WithCause symptom cause ≠ .nil
    ∧ WithCause symptom cause ≠ symptom
    ∧ WithCause symptom cause ≠ cause := by
  refine ⟨rfl, rfl, by simp [WithCause], ?_, ?_⟩
  · exact annotated_ne_symptom cause symptom
  · exact annotated_ne_cause cause symptom

/-! ## C2 -/

/-- C2: for non-nil symptom, cause and target, `Is(WithCause(symptom, cause),
target)` is true whenever `Is(symptom, target)` or `Is(cause, target)` is, and
is false when neither is and the target is not the annotated error itself. -/
theorem Is_WithCause_composes (symptom cause target : Error)
    (hs : symptom ≠ .nil) (hc : cause ≠ .nil) (ht : target ≠ .nil) :
    ((Is symptom target = true ∨ Is cause target = true) →
        Is (WithCause symptom cause) target = true)
    ∧ (Is symptom target = false → Is cause target = false →
        target ≠ WithCause symptom cause → Is (WithCause symptom cause) target = false) := by
  have _ := hs
  have _ := hc
  unfold WithCause
  rw [Is_annotated cause symptom target ht]
  constructor
  · rintro (h | h) <;> simp [h]
  · intro h1 h2 h3
    simp [h1, h2, Ne.symm h3]

/-- C2 at a concrete input: the symptom is itself annotated, and the target is
the cause of that inner annotation. -/
theorem Is_WithCause_composes_witness :
    Is (WithCause (WithCause (.leaf 1 "s") (.leaf 2 "deep")) (.leaf 3 "c")) (.leaf 2 "deep") = true
    ∧ Is (WithCause (WithCause (.leaf 1 "s") (.leaf 2 "deep")) (.leaf 3 "c")) (.leaf 4 "other")
        = false :=
  ⟨(Is_WithCause_composes (WithCause (.leaf 1 "s") (.leaf 2 "deep")) (.leaf 3 "c") (.leaf 2 "deep")
      (by decide) (by decide) (by decide)).1 (Or.inl (by decide)),
   (Is_WithCause_composes (WithCause (.leaf 1 "s") (.leaf 2 "deep")) (.leaf 3 "c") (.leaf 4 "other")
      (by decide) (by decide) (by decide)).2 (by decide) (by decide) (by decide)⟩

/-! ## C3 -/

/-- C3: `IsNotFound(NotFoundError(e))` is true exactly for non-nil `e`;
`NotFoundError(nil)` is nil and `IsNotFound(nil)` is false. -/
theorem IsNotFound_NotFoundError (e : Error) :
    (IsNotFound (NotFoundError e) = true ↔ e ≠ .nil)
    ∧ NotFoundError .nil = .nil
    ∧ IsNotFound .nil = false := by
  refine ⟨?_, rfl, rfl⟩
  by_cases h : e = .nil
  · subst h
    simp [NotFoundError, IsNotFound, Cause]
  · simp [NotFoundError, IsNotFound, Cause, h]

/-! ## C4 -/

/-- C4, as stated, fails: a not-found marker placed as the cause of a
`WithCause` is not found by `IsNotFound`. -/
theorem IsNotFound_blind_to_WithCause :
    IsNotFound (WithCause (.leaf 1 "cannot load config") (NotFoundError (.leaf 2 "no such file")))
      = false := by
  decide

/-- C4, amended: `IsNotFound` follows the `Cause()` chain of
`github.com/pkg/errors` only.  It is true exactly when `errors.Cause` ends at a
value of the type `notFoundError` that `NotFoundError` makes; so it is true for `NotFoundError(e)`, `e` not
nil, under any number of `errors.Wrap` layers, and false for every
`WithCause(s, c)`, whatever `s` and `c` hold, under any number of such layers. -/
theorem IsNotFound_follows_Cause_chain :
    (∀ x : Error, IsNotFound x = true ↔ ∃ e, Cause x = .notFoundError e)
    ∧ (∀ (next : Nat) (ms : List String) (e : Error), e ≠ .nil →
        IsNotFound (wrapAll next ms (NotFoundError e)) = true)
    ∧ (∀ (next : Nat) (ms : List String) (s c : Error),
        IsNotFound (wrapAll next ms (WithCause s c)) = false) := by
  refine ⟨?_, ?_, ?_⟩
  · intro x
    unfold IsNotFound
    constructor
    · intro h
      split at h
      · next e he => exact ⟨e, he⟩
      · simp at h
    · rintro ⟨e, he⟩
      simp [he]
  · intro next ms e he
    simp [IsNotFound, Cause_wrapAll, NotFoundError, he, Cause]
  · intro next ms s c
    simp [IsNotFound, Cause_wrapAll, WithCause, Cause]

/-! ## C5 -/

/-- C5, as stated, fails: in the sample file system the read of `secret.yaml`
fails with a permission error, which is not a file-does-not-exist error, and
the error of `ReadFile` is a not-found error all the same. -/
theorem ReadFile_permission_denied_is_not_found :
    sampleEnv.ioutilReadFile "secret.yaml" = ("", .leaf 104 "open secret.yaml: permission denied")
    ∧ sampleEnv.osIsNotExist (.leaf 104 "open secret.yaml: permission denied") = false
    ∧ IsNotFound (ReadFile sampleEnv 0 "secret.yaml").2 = true := by
  decide

/-- C5, amended: for every path whose read fails with error `e`, `ReadFile`
returns the zero config and `NotFoundError(e)`, and `IsNotFound` of that error
is true, whatever kind of failure `e` is. -/
theorem ReadFile_read_failure (env : Env ConfigV1 ConfigV2) (next : Nat) (path : String)
    (h : (env.ioutilReadFile path).2 ≠ .nil) :
    ReadFile env next path = (env.zeroV2, NotFoundError (env.ioutilReadFile path).2)
    ∧ IsNotFound (ReadFile env next path).2 = true := by
  have hr : ReadFile env next path = (env.zeroV2, NotFoundError (env.ioutilReadFile path).2) := by
    unfold ReadFile
    rcases hio : env.ioutilReadFile path with ⟨b, err⟩
    rw [hio] at h
    simp only at h
    simp [h]
  refine ⟨hr, ?_⟩
  rw [hr]
  simp [NotFoundError, h, IsNotFound, Cause]

/-- C5, amended, at two concrete inputs: a missing file and an unreadable
one. -/
theorem ReadFile_read_failure_witness :
    (sampleEnv.ioutilReadFile "absent.yaml").2 ≠ .nil
    ∧ IsNotFound (ReadFile sampleEnv 0 "absent.yaml").2 = true
    ∧ IsNotFound (ReadFile sampleEnv 0 "secret.yaml").2 = true :=
  ⟨by decide, (ReadFile_read_failure sampleEnv 0 "absent.yaml" (by decide)).2,
    (ReadFile_read_failure sampleEnv 0 "secret.yaml" (by decide)).2⟩

/-! ## C6 -/

/-- C6: when the sniffed version of a buffer is the latest one, `readYaml`
returns what the strict decode of the buffer into a zero latest config returns,
config and error alike; so does `ReadFile` on every path without the extension
`.jsonnet` whose file holds the buffer. -/
theorem readYaml_latest (env : Env ConfigV1 ConfigV2) (next : Nat) (buf : String)
    (hv : readVersion env buf = (env.versionV2, .nil)) :
    readYaml env next buf = env.yamlUnmarshalStrictV2 buf env.zeroV2
    ∧ ∀ path : String, env.ioutilReadFile path = (buf, .nil) → Ext path ≠ ".jsonnet" →
        ReadFile env next path = env.yamlUnmarshalStrictV2 buf env.zeroV2 := by
  have hy : readYaml env next buf = env.yamlUnmarshalStrictV2 buf env.zeroV2 := by
    simp [readYaml, hv]
  refine ⟨hy, ?_⟩
  intro path hread hext
  simp [ReadFile, hread, hext, hy]

/-- C6 at concrete inputs: a valid latest document read from `cfg.yaml`, and a
latest document with an unknown field, on which the strict decode and
`readYaml` fail alike. -/
theorem readYaml_latest_witness :
    ReadFile sampleEnv 0 "cfg.yaml" = (⟨"v1alpha2", "me"⟩, .nil)
    ∧ readYaml sampleEnv 0 "version: v1alpha2\nauthor: me\nbogus: 1"
        = (⟨"v1alpha2", "me"⟩, .leaf 101 "field bogus not found in type Config") :=
  ⟨((readYaml_latest sampleEnv 0 "version: v1alpha2\nauthor: me" (by decide)).2 "cfg.yaml"
      (by decide) (by decide)).trans (by decide),
   ((readYaml_latest sampleEnv 0 "version: v1alpha2\nauthor: me\nbogus: 1" (by decide)).1).trans
      (by decide)⟩

/-! ## C7 -/

/-- C7: when the sniffed version of a buffer is the predecessor one (a tag
distinct from the latest, as the two are cases of one `switch`) and the buffer
strictly decodes into the predecessor schema as `v1`, `readYaml` returns
`Import(v1)`, config and error alike. -/
theorem readYaml_predecessor (env : Env ConfigV1 ConfigV2) (next : Nat) (buf : String)
    (v1 : ConfigV1)
    (hne : env.versionV1 ≠ env.versionV2)
    (hv : readVersion env buf = (env.versionV1, .nil))
    (hdec : env.yamlUnmarshalStrictV1 buf env.zeroV1 = (v1, .nil)) :
    readYaml env next buf = env.Import v1 := by
  simp [readYaml, hv, hne, hdec]

/-- C7 at a concrete input: a predecessor document, migrated. -/
theorem readYaml_predecessor_witness :
    readYaml sampleEnv 0 "version: v1alpha1\nname: me" = (⟨"v1alpha2", "me"⟩, .nil) :=
  (readYaml_predecessor sampleEnv 0 "version: v1alpha1\nname: me" ⟨"v1alpha1", "me"⟩
    (by decide) (by decide) (by decide)).trans (by decide)

/-! ## C8 -/

/-- C8: when the version of a buffer is sniffed without error and is neither
the latest nor the predecessor tag, `readYaml` returns the zero config and a
non-nil error whose message ends with that tag; the result stays the same when
the two strict decoders and `Import` are replaced, so none of them decides it. -/
theorem readYaml_unknown_version (env : Env ConfigV1 ConfigV2) (next : Nat) (buf : String)
    (herr : (readVersion env buf).2 = .nil)
    (h2 : (readVersion env buf).1 ≠ env.versionV2)
    (h1 : (readVersion env buf).1 ≠ env.versionV1) :
    (readYaml env next buf).1 = env.zeroV2
    ∧ (readYaml env next buf).2 ≠ .nil
    ∧ (readYaml env next buf).2.Error
        = some ("unknown config version: " ++ (readVersion env buf).1)
    ∧ ∀ (dec2 : String → ConfigV2 → ConfigV2 × Error)
        (dec1 : String → ConfigV1 → ConfigV1 × Error) (imp : ConfigV1 → ConfigV2 × Error),
        readYaml (replaceDecoders env dec2 dec1 imp) next buf = readYaml env next buf := by
  have hy : ∀ env2 : Env ConfigV1 ConfigV2,
      env2.yamlUnmarshalVersion = env.yamlUnmarshalVersion → env2.versionV1 = env.versionV1 →
      env2.versionV2 = env.versionV2 → env2.zeroV2 = env.zeroV2 →
      readYaml env2 next buf
        = (env.zeroV2, Errorf next ("unknown config version: " ++ (readVersion env buf).1)) := by
    intro env2 e1 e2 e3 e4
    unfold readYaml
    have hrv : readVersion env2 buf = readVersion env buf := by simp [readVersion, e1]
    rw [hrv]
    rcases hrd : readVersion env buf with ⟨version, err⟩
    rw [hrd] at herr h2 h1
    simp only at herr h2 h1
    simp [herr, h2, h1, e2, e3, e4]
  have h0 := hy env rfl rfl rfl rfl
  refine ⟨by rw [h0], by rw [h0]; simp [Errorf], by rw [h0]; simp [Errorf, Error.Error], ?_⟩
  intro dec2 dec1 imp
  rw [h0]
  exact hy (replaceDecoders env dec2 dec1 imp) rfl rfl rfl rfl

/-- C8 at two concrete inputs: a document with no version key, whose tag is
empty, and a document with the tag `v9`. -/
theorem readYaml_unknown_version_witness :
    readYaml sampleEnv 0 "author: me" = (⟨"", ""⟩, .fundamental 0 "unknown config version: ")
    ∧ (readYaml sampleEnv 0 "version: v9\nauthor: me").2.Error
        = some "unknown config version: v9" :=
  ⟨Prod.ext (readYaml_unknown_version sampleEnv 0 "author: me" (by decide) (by decide)
      (by decide)).1 (by decide),
   (readYaml_unknown_version sampleEnv 0 "version: v9\nauthor: me" (by decide) (by decide)
      (by decide)).2.2.1.trans (by decide)⟩

/-! ## C9 -/

/-- C9: on a path with the extension `.jsonnet`, `ReadFile` is `readJsonnet`.
When the source evaluates and the result decodes to a config of declared
version `v`, `readJsonnet` succeeds (with that config) exactly when `v` is the
latest tag, and fails otherwise with the message `unsupported version` followed
by `v` in single quotes.  When the evaluator fails with `e`, `readJsonnet`
fails with `errors.Wrap(e, "invalid jsonnet")`, whose message ends with the
message of `e` and whose cause is that of `e`. -/
theorem readJsonnet_latest_only (env : Env ConfigV1 ConfigV2) (next : Nat) (path src : String)
    (hread : env.ioutilReadFile path = (src, .nil)) (hext : Ext path = ".jsonnet") :
    ReadFile env next path = readJsonnet env next path src
    ∧ (∀ (jstr : String) (cfg : ConfigV2), env.EvaluateSnippet path src = (jstr, .nil) →
        env.jsonUnmarshal jstr env.zeroV2 = (cfg, .nil) →
        ((readJsonnet env next path src).2 = .nil ↔ env.getVersion cfg = env.versionV2)
        ∧ (env.getVersion cfg = env.versionV2 → readJsonnet env next path src = (cfg, .nil))
        ∧ (env.getVersion cfg ≠ env.versionV2 →
            (readJsonnet env next path src).2.Error
              = some ("unsupported version \x27" ++ env.getVersion cfg ++ "\x27")))
    ∧ (∀ (jstr : String) (e : Error) (msg : String), env.EvaluateSnippet path src = (jstr, e) →
        e ≠ .nil → e.Error = some msg →
        (readJsonnet env next path src).2 = Wrap next e "invalid jsonnet"
        ∧ (readJsonnet env next path src).2 ≠ .nil
        ∧ (readJsonnet env next path src).2.Error = some ("invalid jsonnet: " ++ msg)
        ∧ Cause (readJsonnet env next path src).2 = Cause e) := by
  refine ⟨by simp [ReadFile, hread, hext], ?_, ?_⟩
  · intro jstr cfg hev hdec
    by_cases hver : env.getVersion cfg = env.versionV2
    · have hr : readJsonnet env next path src = (cfg, .nil) := by
        simp [readJsonnet, hev, hdec, hver]
      exact ⟨by simp [hr, hver], fun _ => hr, fun h => absurd hver h⟩
    · have hr : readJsonnet env next path src
          = (cfg, Errorf next ("unsupported version \x27" ++ env.getVersion cfg ++ "\x27")) := by
        simp [readJsonnet, hev, hdec, hver]
      refine ⟨by simp [hr, hver, Errorf], fun h => absurd h hver, fun _ => ?_⟩
      rw [hr]
      simp [Errorf, Error.Error]
  · intro jstr e msg hev he hmsg
    have hr : readJsonnet env next path src = (env.zeroV2, Wrap next e "invalid jsonnet") := by
      simp [readJsonnet, hev, he]
    rw [hr]
    refine ⟨rfl, by simp [Wrap, he], ?_, Cause_Wrap next e _⟩
    simp [Wrap, he, Error.Error, hmsg]

/-- C9 at three concrete inputs: a latest document, a predecessor document
(refused, not migrated) and a source the evaluator rejects. -/
theorem readJsonnet_latest_only_witness :
    ReadFile sampleEnv 0 "cfg.jsonnet" = (⟨"v1alpha2", "me"⟩, .nil)
    ∧ (readJsonnet sampleEnv 0 "old.jsonnet" "\x7b version: \"v1alpha1\", author: \"me\" \x7d").2.Error
        = some "unsupported version \x27v1alpha1\x27"
    ∧ (readJsonnet sampleEnv 0 "bad.jsonnet" "local").2.Error
        = some "invalid jsonnet: RUNTIME ERROR: undefined variable" :=
  ⟨(readJsonnet_latest_only sampleEnv 0 "cfg.jsonnet"
      "\x7b version: \"v1alpha2\", author: \"me\" \x7d" (by decide) (by decide)).1.trans
      (((readJsonnet_latest_only sampleEnv 0 "cfg.jsonnet"
        "\x7b version: \"v1alpha2\", author: \"me\" \x7d" (by decide) (by decide)).2.1
        "\x7b\"version\": \"v1alpha2\", \"author\": \"me\"\x7d" ⟨"v1alpha2", "me"⟩
        (by decide) (by decide)).2.1 (by decide)),
   (((readJsonnet_latest_only sampleEnv 0 "old.jsonnet"
      "\x7b version: \"v1alpha1\", author: \"me\" \x7d" (by decide) (by decide)).2.1
      "\x7b\"version\": \"v1alpha1\", \"author\": \"me\"\x7d" ⟨"v1alpha1", "me"⟩
      (by decide) (by decide)).2.2 (by decide)).trans (by decide),
   ((readJsonnet_latest_only sampleEnv 0 "bad.jsonnet" "local" (by decide) (by decide)).2.2
      "" (.leaf 103 "RUNTIME ERROR: undefined variable") "RUNTIME ERROR: undefined variable"
      (by decide) (by decide) (by decide)).2.2.1⟩

/-! ## C10 -/

/-- C10 on the code: the source of `typo.jsonnet` evaluates to a latest
document with the key `bogus`, which the latest schema lacks.  `readJsonnet`
decodes it with `json.Unmarshal`, which skips that key, and succeeds;
`readYaml` on the same document text decodes it with `yaml.UnmarshalStrict`
and fails. -/
theorem readJsonnet_skips_unknown_field :
    sampleEnv.EvaluateSnippet "typo.jsonnet"
        "\x7b version: \"v1alpha2\", author: \"me\", bogus: \"1\" \x7d"
      = ("\x7b\"version\": \"v1alpha2\", \"author\": \"me\", \"bogus\": \"1\"\x7d", .nil)
    ∧ sampleParse "\x7b\"version\": \"v1alpha2\", \"author\": \"me\", \"bogus\": \"1\"\x7d"
      = some [("version", "v1alpha2"), ("author", "me"), ("bogus", "1")]
    ∧ setV2 ⟨"", ""⟩ ("bogus", "1") = none
    ∧ readJsonnet sampleEnv 0 "typo.jsonnet"
        "\x7b version: \"v1alpha2\", author: \"me\", bogus: \"1\" \x7d"
      = (⟨"v1alpha2", "me"⟩, .nil)
    ∧ ReadFile sampleEnv 0 "typo.jsonnet" = (⟨"v1alpha2", "me"⟩, .nil)
    ∧ readYaml sampleEnv 0 "\x7b\"version\": \"v1alpha2\", \"author\": \"me\", \"bogus\": \"1\"\x7d"
      = (⟨"v1alpha2", "me"⟩, .leaf 101 "field bogus not found in type Config") := by
  decide

/-! ## Lemmas on `Details` -/

theorem Details_unfold (err : Error) :
    Details err = match asDetailed err with
      | some (inner, details) => "\n  - " ++ ReplaceAll details '\n' "\n    " ++ Details inner
      | none => "" := by
  rw [Details]
  split <;> simp_all

theorem Details_detailed (e : Error) (d : String) :
    Details (.detailed e d) = "\n  - " ++ ReplaceAll d '\n' "\n    " ++ Details e := by
  rw [Details_unfold]
  simp [asDetailed]

theorem Details_of_asDetailed_none (err : Error) (h : asDetailed err = none) :
    Details err = "" := by
  rw [Details_unfold, h]

theorem bullet_ne_empty (x y : String) : "\n  - " ++ x ++ y ≠ "" := by
  intro h
  have := congrArg String.data h
  simp [String.data_append] at this

theorem Details_eq_empty_iff (err : Error) : Details err = "" ↔ asDetailed err = none := by
  constructor
  · intro h
    rw [Details_unfold] at h
    cases ha : asDetailed err with
    | none => rfl
    | some r =>
        rw [ha] at h
        exact absurd h (bullet_ne_empty _ _)
  · exact Details_of_asDetailed_none err

theorem asDetailed_annotated (c s : Error) :
    asDetailed (.annotated c s)
      = match asDetailed s with
        | some r => some r
        | none => asDetailed c := by
  simp only [asDetailed]
  cases asDetailed s <;> cases asDetailed c <;> rfl

theorem Details_annotated (c s : Error) :
    Details (.annotated c s) = if Details s = "" then Details c else Details s := by
  rw [Details_unfold (.annotated c s), asDetailed_annotated]
  cases hs : asDetailed s with
  | some r =>
      have hne : Details s ≠ "" := fun h => by
        rw [Details_eq_empty_iff, hs] at h
        exact absurd h (by simp)
      rw [if_neg hne, Details_unfold s, hs]
  | none =>
      rw [if_pos (Details_of_asDetailed_none s hs), Details_unfold c]

theorem concatAll_append (xs ys : List String) :
    concatAll (xs ++ ys) = concatAll xs ++ concatAll ys := by
  induction xs with
  | nil => simp [concatAll]
  | cons x xs ih => simp [concatAll, ih, String.append_assoc]

theorem WithDetails_of_ne_nil (err : Error) (d : String) (h : err ≠ .nil) :
    WithDetails err d = .detailed err d := by
  simp [WithDetails, h]

theorem Details_withAllDetails (f : String → String)
    (hf : ∀ d, f d = "\n  - " ++ ReplaceAll d '\n' "\n    ")
    (ds : List String) (base : Error) (hb : base ≠ .nil) :
    Details (withAllDetails base ds) = concatAll (ds.reverse.map f) ++ Details base := by
  induction ds generalizing base with
  | nil => simp [withAllDetails, concatAll]
  | cons d ds ih =>
      have h1 : withAllDetails base (d :: ds) = withAllDetails (.detailed base d) ds := by
        simp [withAllDetails, WithDetails_of_ne_nil base d hb]
      rw [h1, ih (.detailed base d) (by simp), Details_detailed]
      simp [concatAll_append, concatAll, hf, String.append_assoc]

theorem indentOf_bullet (x : String) : indentOf ("  - " ++ x) = 2 := by
  simp [indentOf, String.data_append, List.takeWhile]

/-! ## C11 -/

/-- C11 on the code: the source of `typo.jsonnet` evaluates to a text whose
sniffed version is the latest tag and which has the key `bogus`.  `readJsonnet`
on the source succeeds, `readYaml` on the text fails; on the text without that
key the two agree. -/
theorem readJsonnet_readYaml_disagree :
    sampleEnv.EvaluateSnippet "typo.jsonnet"
        "\x7b version: \"v1alpha2\", author: \"me\", bogus: \"1\" \x7d"
      = ("\x7b\"version\": \"v1alpha2\", \"author\": \"me\", \"bogus\": \"1\"\x7d", .nil)
    ∧ readVersion sampleEnv
        "\x7b\"version\": \"v1alpha2\", \"author\": \"me\", \"bogus\": \"1\"\x7d"
      = (LatestVersion sampleEnv, .nil)
    ∧ (readJsonnet sampleEnv 0 "typo.jsonnet"
        "\x7b version: \"v1alpha2\", author: \"me\", bogus: \"1\" \x7d").2 = .nil
    ∧ (readYaml sampleEnv 0
        "\x7b\"version\": \"v1alpha2\", \"author\": \"me\", \"bogus\": \"1\"\x7d").2
      = .leaf 101 "field bogus not found in type Config"
    ∧ readJsonnet sampleEnv 0 "cfg.jsonnet" "\x7b version: \"v1alpha2\", author: \"me\" \x7d"
      = readYaml sampleEnv 0 "\x7b\"version\": \"v1alpha2\", \"author\": \"me\"\x7d" := by
  decide

/-! ## C12 -/

/-- C12: for a non-nil base error without details and details `d1..dn` applied
with `WithDetails`, `d1` first, `Details` of the result is the concatenation,
from `dn` down to `d1`, of a newline, two spaces, a dash, a space and the
detail with each of its newlines followed by four spaces; for the details
`a` then `b` it is the bullet of `b` followed by the bullet of `a`. -/
theorem Details_renders_outer_to_inner (base : Error) (ds : List String)
    (hb : base ≠ .nil) (h0 : Details base = "") :
    Details (withAllDetails base ds)
      = concatAll (ds.reverse.map fun d => "\n  - " ++ ReplaceAll d '\n' "\n    ")
    ∧ Details (WithDetails (WithDetails base "a") "b") = "\n  - b\n  - a" := by
  have h := Details_withAllDetails (fun d => "\n  - " ++ ReplaceAll d '\n' "\n    ")
    (fun _ => rfl)
  constructor
  · rw [h ds base hb, h0]
    simp
  · have h2 := h ["a", "b"] base hb
    simp only [withAllDetails, List.foldl] at h2
    rw [h2, h0]
    decide

/-- C12 at a concrete input: three details, the second of two lines. -/
theorem Details_renders_outer_to_inner_witness :
    Details (WithDetails (WithDetails (WithDetails (.leaf 1 "boom") "a") "b\nc") "d")
      = "\n  - d\n  - b\n    c\n  - a" :=
  (Details_renders_outer_to_inner (.leaf 1 "boom") ["a", "b\nc", "d"] (by decide)
    (Details_of_asDetailed_none _ rfl)).1.trans (by decide)

/-! ## C13 -/

/-- C13, as stated, fails: the bullet line of the nested detail starts with two
spaces, as the bullet line of the detail that wraps it does. -/
theorem Details_nested_not_deeper :
    Details (WithDetails (WithDetails (.leaf 1 "boom") "inner") "outer")
      = "\n" ++ "  - outer" ++ "\n" ++ "  - inner"
    ∧ indentOf "  - outer" = 2
    ∧ indentOf "  - inner" = 2 := by
  refine ⟨?_, by decide, by decide⟩
  have h := Details_withAllDetails (fun d => "\n  - " ++ ReplaceAll d '\n' "\n    ")
    (fun _ => rfl) ["inner", "outer"] (.leaf 1 "boom") (by decide)
  simp only [withAllDetails, List.foldl] at h
  rw [h, Details_of_asDetailed_none (.leaf 1 "boom") rfl]
  decide

/-- C13, amended: `Details` renders every detail of a chain at one depth.  The
output is, from the outermost detail to the innermost, one segment per detail:
a newline and then a bullet line of indentation two, whatever the depth of the
detail in the chain. -/
theorem Details_bullets_same_indent (base : Error) (ds : List String)
    (hb : base ≠ .nil) (h0 : Details base = "") :
    Details (withAllDetails base ds)
      = concatAll (ds.reverse.map fun d => "\n" ++ ("  - " ++ ReplaceAll d '\n' "\n    "))
    ∧ ∀ d ∈ ds, indentOf ("  - " ++ ReplaceAll d '\n' "\n    ") = 2 := by
  constructor
  · rw [Details_withAllDetails (fun d => "\n" ++ ("  - " ++ ReplaceAll d '\n' "\n    "))
      (fun d => by
        show "\n" ++ ("  - " ++ ReplaceAll d '\n' "\n    ") = "\n  - " ++ ReplaceAll d '\n' "\n    "
        rw [← String.append_assoc]
        rfl) ds base hb, h0]
    simp
  · intro d _
    exact indentOf_bullet _

/-- C13, amended, at a concrete input. -/
theorem Details_bullets_same_indent_witness :
    Details (WithDetails (WithDetails (.leaf 1 "boom") "inner") "outer")
      = "\n  - outer\n  - inner"
    ∧ indentOf ("  - " ++ ReplaceAll "inner" '\n' "\n    ") = 2 :=
  ⟨(Details_bullets_same_indent (.leaf 1 "boom") ["inner", "outer"] (by decide)
      (Details_of_asDetailed_none _ rfl)).1.trans (by decide),
   (Details_bullets_same_indent (.leaf 1 "boom") ["inner", "outer"] (by decide)
      (Details_of_asDetailed_none _ rfl)).2 "inner" (by decide)⟩

/-! ## C14 -/

/-- C14, as stated, fails: the outermost value is an annotated error built by
`WithCause`, its cause carries a detail, and `Details` renders that detail. -/
theorem Details_sees_through_WithCause :
    Details (WithCause (.leaf 1 "cannot load") (WithDetails (.leaf 2 "no such file") "check the path"))
      = "\n  - check the path" := by
  have h : WithCause (.leaf 1 "cannot load") (WithDetails (.leaf 2 "no such file") "check the path")
      = .annotated (.detailed (.leaf 2 "no such file") "check the path") (.leaf 1 "cannot load") := by
    decide
  rw [h, Details_annotated, Details_of_asDetailed_none (.leaf 1 "cannot load") rfl,
    Details_detailed, Details_of_asDetailed_none (.leaf 2 "no such file") rfl]
  decide

/-- C14, amended: `Details` is empty exactly when `errors.As` finds no
`detailed` value.  It is empty for nil and for a plain error; for an annotated
error built by `WithCause` it is the `Details` of the symptom when that is not
empty and the `Details` of the cause otherwise, so it is empty exactly when
both are. -/
theorem Details_empty_base_case :
    (∀ err : Error, Details err = "" ↔ asDetailed err = none)
    ∧ Details .nil = ""
    ∧ (∀ (a : Nat) (m : String), Details (.leaf a m) = "")
    ∧ (∀ s c : Error, Details (WithCause s c) = if Details s = "" then Details c else Details s)
    ∧ (∀ s c : Error, Details (WithCause s c) = "" ↔ Details s = "" ∧ Details c = "") := by
  refine ⟨Details_eq_empty_iff, Details_of_asDetailed_none _ rfl,
    fun a m => Details_of_asDetailed_none _ rfl, fun s c => Details_annotated c s, ?_⟩
  intro s c
  unfold WithCause
  rw [Details_annotated]
  by_cases hs : Details s = ""
  · simp [hs]
  · simp [hs]

/-! ## C15 -/

/-- C15: `WithDetails(nil, d)` is nil, and for a non-nil `err`,
`WithDetails(err, d)` is the non-nil `detailed` value whose fields are `err`
and `d`. -/
theorem WithDetails_nil_propagation (err : Error) (d : String) :
    WithDetails .nil d = .nil
    ∧ (err ≠ .nil →
        WithDetails err d = .detailed err d
        ∧ WithDetails err d ≠ .nil
        ∧ asDetailed (WithDetails err d) = some (err, d)) := by
  refine ⟨rfl, fun h => ?_⟩
  rw [WithDetails_of_ne_nil err d h]
  exact ⟨rfl, by simp, rfl⟩

/-- C15 at a concrete input. -/
theorem WithDetails_nil_propagation_witness :
    WithDetails .nil "x" = .nil
    ∧ WithDetails (.leaf 1 "boom") "x" = .detailed (.leaf 1 "boom") "x" :=
  ⟨(WithDetails_nil_propagation (.leaf 1 "boom") "x").1,
   ((WithDetails_nil_propagation (.leaf 1 "boom") "x").2 (by decide)).1⟩

/-! ## Lemmas on the resolver's errors -/

theorem isLoop_self (e : Error) : isLoop e e = true := by
  cases e <;> simp [isLoop]

theorem Wrap_ne_nil (next : Nat) (e : Error) (m : String) (he : e ≠ .nil) :
    Wrap next e m ≠ .nil := by
  simp [Wrap, he]

theorem Is_Wrap_self (next : Nat) (e : Error) (m : String) (he : e ≠ .nil) :
    Is (Wrap next e m) e = true := by
  rw [Is_of_ne_nil _ _ (Wrap_ne_nil next e m he) he]
  simp [Wrap, he, isLoop, isLoop_self]

theorem Error_Wrap (next : Nat) (e : Error) (m msg : String) (he : e ≠ .nil)
    (hmsg : e.Error = some msg) : (Wrap next e m).Error = some (m ++ ": " ++ msg) := by
  simp [Wrap, he, Error.Error, hmsg]

theorem readJsonnet_ok_version (env : Env ConfigV1 ConfigV2) (next : Nat) (path buf : String)
    (hok : (readJsonnet env next path buf).2 = .nil) :
    env.getVersion (readJsonnet env next path buf).1 = env.versionV2 := by
  rcases hev : env.EvaluateSnippet path buf with ⟨jstr, err⟩
  rcases hdec : env.jsonUnmarshal jstr env.zeroV2 with ⟨res, err2⟩
  by_cases he : err = .nil
  · by_cases he2 : err2 = .nil
    · by_cases hv : env.getVersion res = env.versionV2
      · have hr : readJsonnet env next path buf = (res, .nil) := by
          simp [readJsonnet, hev, hdec, he, he2, hv]
        rw [hr]
        exact hv
      · have hr : (readJsonnet env next path buf).2
            = Errorf next ("unsupported version \x27" ++ env.getVersion res ++ "\x27") := by
          simp [readJsonnet, hev, hdec, he, he2, hv]
        rw [hr] at hok
        simp [Errorf] at hok
    · have hr : (readJsonnet env next path buf).2 = err2 := by
        simp [readJsonnet, hev, hdec, he, he2]
      exact absurd (hr.symm.trans hok) he2
  · have hr : (readJsonnet env next path buf).2 = Wrap next err "invalid jsonnet" := by
      simp [readJsonnet, hev, he]
    exact absurd (hr.symm.trans hok) (Wrap_ne_nil next err _ he)

theorem readYaml_ok_version (env : Env ConfigV1 ConfigV2) (next : Nat) (buf : String)
    (hdec : ∀ cfg : ConfigV2, readVersion env buf = (env.versionV2, .nil) →
      env.yamlUnmarshalStrictV2 buf env.zeroV2 = (cfg, .nil) →
      env.getVersion cfg = env.versionV2)
    (himp : ∀ (v1 : ConfigV1) (cfg : ConfigV2), env.Import v1 = (cfg, .nil) →
      env.getVersion cfg = env.versionV2)
    (hok : (readYaml env next buf).2 = .nil) :
    env.getVersion (readYaml env next buf).1 = env.versionV2 := by
  rcases hrv : readVersion env buf with ⟨version, err⟩
  rcases hd1 : env.yamlUnmarshalStrictV1 buf env.zeroV1 with ⟨v1, err1⟩
  by_cases he : err = .nil
  · subst he
    by_cases h2 : version = env.versionV2
    · subst h2
      have hr : readYaml env next buf = env.yamlUnmarshalStrictV2 buf env.zeroV2 := by
        simp [readYaml, hrv]
      rw [hr] at hok ⊢
      exact hdec _ hrv (Prod.ext rfl hok)
    · by_cases h1 : version = env.versionV1
      · subst h1
        by_cases he1 : err1 = .nil
        · have hr : readYaml env next buf = env.Import v1 := by
            simp [readYaml, hrv, h2, hd1, he1]
          rw [hr] at hok ⊢
          exact himp v1 _ (Prod.ext rfl hok)
        · have hr : (readYaml env next buf).2 = Wrap next err1 "error parsing v1alpha1 config" := by
            simp [readYaml, hrv, h2, hd1, he1]
          exact absurd (hr.symm.trans hok) (Wrap_ne_nil next err1 _ he1)
      · have hr : (readYaml env next buf).2
            = Errorf next ("unknown config version: " ++ version) := by
          simp [readYaml, hrv, h2, h1]
        rw [hr] at hok
        simp [Errorf] at hok
  · have hr : (readYaml env next buf).2 = Wrap next err "error parsing the config version" := by
      simp [readYaml, hrv, he]
    exact absurd (hr.symm.trans hok) (Wrap_ne_nil next err _ he)

theorem sampleParse_cases (buf : String) (doc : Doc) (h : sampleParse buf = some doc) :
    doc ∈ [[("version", "v1alpha2"), ("author", "me")],
      [("version", "v1alpha2"), ("author", "me"), ("bogus", "1")],
      [("version", "v1alpha1"), ("name", "me")],
      [("version", "v9"), ("author", "me")],
      [("author", "me")],
      [("version", "v1alpha1"), ("author", "me")]] := by
  unfold sampleParse at h
  split at h <;> simp at h <;> subst h <;> simp

theorem sampleEnv_strict_keeps_version (buf : String) (cfg : SampleV2)
    (hv : readVersion sampleEnv buf = (sampleEnv.versionV2, .nil))
    (hd : sampleEnv.yamlUnmarshalStrictV2 buf sampleEnv.zeroV2 = (cfg, .nil)) :
    sampleEnv.getVersion cfg = sampleEnv.versionV2 := by
  simp only [readVersion, sampleEnv] at hv hd ⊢
  cases hp : sampleParse buf with
  | none =>
      rw [hp] at hv
      simp [sampleSyntaxError] at hv
  | some doc =>
      rw [hp] at hv hd
      simp only at hv hd
      have hmem := sampleParse_cases buf doc hp
      simp only [List.mem_cons, List.mem_singleton, List.not_mem_nil, or_false] at hmem
      rcases hmem with h | h | h | h | h | h <;> subst h <;>
        simp [docVersion, decodeV2, setV2] at hv hd ⊢
      · rw [← hd]

theorem sampleEnv_Import_latest (v1 : SampleV1) (cfg : SampleV2)
    (h : sampleEnv.Import v1 = (cfg, .nil)) : sampleEnv.getVersion cfg = sampleEnv.versionV2 := by
  have h1 := congrArg Prod.fst h
  simp only [sampleEnv] at h1
  rw [← h1]
  rfl

/-! ## C16 -/

/-- C16: take a strict yaml decoder that keeps the sniffed latest version
(`StrictDecodeKeepsVersion`) and an `Import` that yields on success a config of
the latest version (`ImportYieldsLatest`).  Then whenever
`ReadFile`, `readYaml` or `readJsonnet` returns a nil error, the `Version`
field of the returned config is `LatestVersion`; for `readJsonnet` this needs
neither assumption. -/
theorem ReadFile_returns_latest (env : Env ConfigV1 ConfigV2) (next : Nat) (path : String)
    (hdec : StrictDecodeKeepsVersion env) (himp : ImportYieldsLatest env) :
    ((ReadFile env next path).2 = .nil →
      env.getVersion (ReadFile env next path).1 = LatestVersion env)
    ∧ (∀ buf : String, (readYaml env next buf).2 = .nil →
      env.getVersion (readYaml env next buf).1 = LatestVersion env)
    ∧ (∀ buf : String, (readJsonnet env next path buf).2 = .nil →
      env.getVersion (readJsonnet env next path buf).1 = LatestVersion env) := by
  have hy : ∀ buf : String, (readYaml env next buf).2 = .nil →
      env.getVersion (readYaml env next buf).1 = LatestVersion env :=
    fun buf => readYaml_ok_version env next buf (hdec buf) himp
  have hj : ∀ buf : String, (readJsonnet env next path buf).2 = .nil →
      env.getVersion (readJsonnet env next path buf).1 = LatestVersion env :=
    fun buf => readJsonnet_ok_version env next path buf
  refine ⟨?_, hy, hj⟩
  intro hok
  rcases hio : env.ioutilReadFile path with ⟨b, err⟩
  by_cases he : err = .nil
  · by_cases hx : Ext path = ".jsonnet"
    · have hr : ReadFile env next path = readJsonnet env next path b := by
        simp [ReadFile, hio, he, hx]
      rw [hr] at hok ⊢
      exact hj b hok
    · have hr : ReadFile env next path = readYaml env next b := by
        simp [ReadFile, hio, he, hx]
      rw [hr] at hok ⊢
      exact hy b hok
  · have hr : (ReadFile env next path).2 = NotFoundError err := by
      simp [ReadFile, hio, he]
    rw [hr] at hok
    simp [NotFoundError, he] at hok

/-- C16 at concrete inputs of the sample environment, whose decoder and
`Import` meet the two assumptions: a latest file, a migrated predecessor file
and an expression-language file. -/
theorem ReadFile_returns_latest_witness :
    sampleEnv.getVersion (ReadFile sampleEnv 0 "cfg.yaml").1 = "v1alpha2"
    ∧ sampleEnv.getVersion (ReadFile sampleEnv 0 "old.yaml").1 = "v1alpha2"
    ∧ sampleEnv.getVersion (ReadFile sampleEnv 0 "cfg.jsonnet").1 = "v1alpha2" :=
  ⟨(ReadFile_returns_latest sampleEnv 0 "cfg.yaml" sampleEnv_strict_keeps_version
      sampleEnv_Import_latest).1 (by decide),
   (ReadFile_returns_latest sampleEnv 0 "old.yaml" sampleEnv_strict_keeps_version
      sampleEnv_Import_latest).1 (by decide),
   (ReadFile_returns_latest sampleEnv 0 "cfg.jsonnet" sampleEnv_strict_keeps_version
      sampleEnv_Import_latest).1 (by decide)⟩

/-! ## C17 -/

/-- C17: when `readVersion` fails on a buffer with error `e`, `readYaml`
returns the zero config and `errors.Wrap(e, "error parsing the config
version")`: a non-nil error whose message is that text, a colon, a space and
the message of `e`, whose `Cause` is that of `e` (`e` itself when `e` has no
`Cause` method) and which `Is` matches with `e`.  The result stays the same
when the strict decoders and `Import` are replaced. -/
theorem readYaml_version_failure (env : Env ConfigV1 ConfigV2) (next : Nat) (buf : String)
    (e : Error) (msg : String)
    (hrv : (readVersion env buf).2 = e) (he : e ≠ .nil) (hmsg : e.Error = some msg) :
    readYaml env next buf = (env.zeroV2, Wrap next e "error parsing the config version")
    ∧ (readYaml env next buf).2 ≠ .nil
    ∧ (readYaml env next buf).2.Error = some ("error parsing the config version: " ++ msg)
    ∧ Cause (readYaml env next buf).2 = Cause e
    ∧ (Cause e = e → Cause (readYaml env next buf).2 = e)
    ∧ Unwrap (Unwrap (readYaml env next buf).2) = e
    ∧ Is (readYaml env next buf).2 e = true
    ∧ ∀ (dec2 : String → ConfigV2 → ConfigV2 × Error)
        (dec1 : String → ConfigV1 → ConfigV1 × Error) (imp : ConfigV1 → ConfigV2 × Error),
        readYaml (replaceDecoders env dec2 dec1 imp) next buf = readYaml env next buf := by
  have hy : ∀ env2 : Env ConfigV1 ConfigV2,
      env2.yamlUnmarshalVersion = env.yamlUnmarshalVersion → env2.zeroV2 = env.zeroV2 →
      readYaml env2 next buf = (env.zeroV2, Wrap next e "error parsing the config version") := by
    intro env2 e1 e2
    have hrv2 : readVersion env2 buf = readVersion env buf := by simp [readVersion, e1]
    rcases hrd : readVersion env buf with ⟨version, err⟩
    rw [hrd] at hrv
    simp only at hrv
    subst hrv
    simp [readYaml, hrv2, hrd, he, e2]
  have h0 := hy env rfl rfl
  rw [h0]
  refine ⟨rfl, Wrap_ne_nil next e _ he, Error_Wrap next e _ msg he hmsg, Cause_Wrap next e _,
    fun hc => (Cause_Wrap next e _).trans hc, by simp [Wrap, he, Unwrap],
    Is_Wrap_self next e _ he, ?_⟩
  intro dec2 dec1 imp
  exact hy (replaceDecoders env dec2 dec1 imp) rfl rfl

/-- C17 at a concrete input: a buffer the sample parser rejects. -/
theorem readYaml_version_failure_witness :
    (readYaml sampleEnv 0 "version: [").2.Error
      = some "error parsing the config version: yaml: did not find expected node content"
    ∧ Cause (readYaml sampleEnv 0 "version: [").2 = sampleSyntaxError :=
  ⟨(readYaml_version_failure sampleEnv 0 "version: [" sampleSyntaxError
      "yaml: did not find expected node content" (by decide) (by decide) (by decide)).2.2.1,
   (readYaml_version_failure sampleEnv 0 "version: [" sampleSyntaxError
      "yaml: did not find expected node content" (by decide) (by decide) (by decide)).2.2.2.2.1
      (by decide)⟩

/-! ## C18 -/

/-- C18, as stated, fails: on a predecessor document with a key the predecessor
schema lacks, the message of the error of `readYaml` starts with `error parsing
v1alpha1 config`, not with `error parsing v1 config`. -/
theorem readYaml_legacy_message_literal :
    readVersion sampleEnv "\x7b\"version\": \"v1alpha1\", \"author\": \"me\"\x7d"
      = (sampleEnv.versionV1, .nil)
    ∧ (sampleEnv.yamlUnmarshalStrictV1 "\x7b\"version\": \"v1alpha1\", \"author\": \"me\"\x7d"
        sampleEnv.zeroV1).2 = .leaf 102 "field author not found in type Config"
    ∧ (readYaml sampleEnv 0 "\x7b\"version\": \"v1alpha1\", \"author\": \"me\"\x7d").2.Error
      = some "error parsing v1alpha1 config: field author not found in type Config"
    ∧ (readYaml sampleEnv 0 "\x7b\"version\": \"v1alpha1\", \"author\": \"me\"\x7d").2.Error
      ≠ some ("error parsing v1 config" ++ ": " ++ "field author not found in type Config") := by
  decide

/-- C18, amended: when the sniffed version of a buffer is the predecessor tag
(distinct from the latest) and the strict decode into the predecessor schema
fails with `e`, `readYaml` returns the zero config and `errors.Wrap(e, "error
parsing v1alpha1 config")`: a non-nil error whose message is that text, a
colon, a space and the message of `e`, whose `Cause` is that of `e` and which
`Is` matches with `e`.  The result stays the same when `Import` is replaced. -/
theorem readYaml_legacy_decode_failure (env : Env ConfigV1 ConfigV2) (next : Nat) (buf : String)
    (e : Error) (msg : String)
    (hne : env.versionV1 ≠ env.versionV2)
    (hv : readVersion env buf = (env.versionV1, .nil))
    (hdec : (env.yamlUnmarshalStrictV1 buf env.zeroV1).2 = e)
    (he : e ≠ .nil) (hmsg : e.Error = some msg) :
    readYaml env next buf = (env.zeroV2, Wrap next e "error parsing v1alpha1 config")
    ∧ (readYaml env next buf).2 ≠ .nil
    ∧ (readYaml env next buf).2.Error = some ("error parsing v1alpha1 config: " ++ msg)
    ∧ Cause (readYaml env next buf).2 = Cause e
    ∧ (Cause e = e → Cause (readYaml env next buf).2 = e)
    ∧ Unwrap (Unwrap (readYaml env next buf).2) = e
    ∧ Is (readYaml env next buf).2 e = true
    ∧ ∀ imp : ConfigV1 → ConfigV2 × Error,
        readYaml (replaceDecoders env env.yamlUnmarshalStrictV2 env.yamlUnmarshalStrictV1 imp)
          next buf = readYaml env next buf := by
  have hy : ∀ env2 : Env ConfigV1 ConfigV2,
      env2.yamlUnmarshalVersion = env.yamlUnmarshalVersion → env2.zeroV2 = env.zeroV2 →
      env2.zeroV1 = env.zeroV1 → env2.versionV1 = env.versionV1 →
      env2.versionV2 = env.versionV2 →
      env2.yamlUnmarshalStrictV1 = env.yamlUnmarshalStrictV1 →
      readYaml env2 next buf = (env.zeroV2, Wrap next e "error parsing v1alpha1 config") := by
    intro env2 e1 e2 e3 e4 e5 e6
    have hrv2 : readVersion env2 buf = (env.versionV1, .nil) := by
      rw [← hv]
      simp [readVersion, e1]
    rcases hd : env.yamlUnmarshalStrictV1 buf env.zeroV1 with ⟨v1, err1⟩
    rw [hd] at hdec
    simp only at hdec
    subst hdec
    simp [readYaml, hrv2, hne, e2, e3, e4, e5, e6, hd, he]
  have h0 := hy env rfl rfl rfl rfl rfl rfl
  rw [h0]
  refine ⟨rfl, Wrap_ne_nil next e _ he, Error_Wrap next e _ msg he hmsg, Cause_Wrap next e _,
    fun hc => (Cause_Wrap next e _).trans hc, by simp [Wrap, he, Unwrap],
    Is_Wrap_self next e _ he, ?_⟩
  intro imp
  exact hy (replaceDecoders env env.yamlUnmarshalStrictV2 env.yamlUnmarshalStrictV1 imp)
    rfl rfl rfl rfl rfl rfl

/-- C18, amended, at a concrete input. -/
theorem readYaml_legacy_decode_failure_witness :
    readYaml sampleEnv 0 "\x7b\"version\": \"v1alpha1\", \"author\": \"me\"\x7d"
      = (⟨"", ""⟩, Wrap 0 (.leaf 102 "field author not found in type Config")
          "error parsing v1alpha1 config")
    ∧ Cause (readYaml sampleEnv 0 "\x7b\"version\": \"v1alpha1\", \"author\": \"me\"\x7d").2
      = .leaf 102 "field author not found in type Config" :=
  ⟨(readYaml_legacy_decode_failure sampleEnv 0
      "\x7b\"version\": \"v1alpha1\", \"author\": \"me\"\x7d"
      (.leaf 102 "field author not found in type Config") "field author not found in type Config"
      (by decide) (by decide) (by decide) (by decide) (by decide)).1,
   (readYaml_legacy_decode_failure sampleEnv 0
      "\x7b\"version\": \"v1alpha1\", \"author\": \"me\"\x7d"
      (.leaf 102 "field author not found in type Config") "field author not found in type Config"
      (by decide) (by decide) (by decide) (by decide) (by decide)).2.2.2.2.1 (by decide)⟩

/-! ## C19 -/

/-- C19 on the code: `Is(err, err)` is true for a plain error `err`, and
`Is(WithDetails(err, d), err)` is false, since `detailed` has neither `Unwrap`
nor `Is`; the same happens under an annotated error, whose cause `Is` finds
before details are attached and not after.  The message is kept. -/
theorem Is_blocked_by_WithDetails :
    Is (.leaf 1 "boom") (.leaf 1 "boom") = true
    ∧ Is (WithDetails (.leaf 1 "boom") "x") (.leaf 1 "boom") = false
    ∧ Is (WithCause (.leaf 1 "boom") (.leaf 2 "not found")) (.leaf 2 "not found") = true
    ∧ Is (WithDetails (WithCause (.leaf 1 "boom") (.leaf 2 "not found")) "x") (.leaf 2 "not found")
      = false
    ∧ (WithDetails (.leaf 1 "boom") "x").Error = (Error.leaf 1 "boom").Error := by
  decide

/-! ## C20 -/

/-- C20, as stated, fails: the message of the annotated error starts with the
message of the cause. -/
theorem WithCause_message_cause_first :
    (WithCause (.leaf 1 "cannot load config") (.leaf 2 "no such file")).Error
      = some "no such file: cannot load config"
    ∧ (WithCause (.leaf 1 "cannot load config") (.leaf 2 "no such file")).Error
      ≠ some ("cannot load config" ++ ": " ++ "no such file") := by
  decide

/-- C20, amended: for a symptom with message `sm` and a cause with message
`cm`, the message of `WithCause(symptom, cause)` is `cm`, a colon, a space and
`sm`, the cause first; unwrapping the annotated error yields the cause. -/
theorem WithCause_message_and_unwrap (symptom cause : Error) (sm cm : String)
    (hs : symptom.Error = some sm) (hc : cause.Error = some cm) :
    symptom ≠ .nil ∧ cause ≠ .nil
    ∧ (WithCause symptom cause).Error = some (cm ++ ": " ++ sm)
    ∧ Unwrap (WithCause symptom cause) = cause := by
  have hsn : symptom ≠ .nil := fun h => by rw [h] at hs; simp [Error.Error] at hs
  have hcn : cause ≠ .nil := fun h => by rw [h] at hc; simp [Error.Error] at hc
  refine ⟨hsn, hcn, ?_, rfl⟩
  simp [WithCause, Error.Error, hsn, hcn, hs, hc]

/-- C20, amended, at a concrete input. -/
theorem WithCause_message_and_unwrap_witness :
    (WithCause (.leaf 1 "cannot load config") (.leaf 2 "no such file")).Error
      = some ("no such file" ++ ": " ++ "cannot load config")
    ∧ Unwrap (WithCause (.leaf 1 "cannot load config") (.leaf 2 "no such file"))
      = .leaf 2 "no such file" :=
  ⟨(WithCause_message_and_unwrap (.leaf 1 "cannot load config") (.leaf 2 "no such file")
      "cannot load config" "no such file" rfl rfl).2.2.1,
   (WithCause_message_and_unwrap (.leaf 1 "cannot load config") (.leaf 2 "no such file")
      "cannot load config" "no such file" rfl rfl).2.2.2⟩

end Gmailfilter
